import Mathlib

/-!
Verification development for the trulens_eval span/trace data model
(`trulens_eval/trace/span.py`).

The Python source is shallowly embedded: attribute stores and link sets
become association lists with Python-dict semantics (first-occurrence
lookup, in-place update, insertion-order iteration), pydantic type
validation becomes a structural `conforms` check over a universe of
attribute values, and the property descriptors become explicit functions
over the store.  Parts of the repository that `span.py` imports but that
are not in the source tree (the `OTSpan` link primitives, the
`containers` timestamp conversions, `DictNamespace`) are modelled from
the specification and are marked as such in their doc comments.
-/

set_option autoImplicit false

/-! ## Span class taxonomy -/

/-- Classes defined in the `span.py` module, in definition order. -/
inductive SpanClass where
  | Span
  | SpanUntyped
  | TransSpanRecord
  | SpanMethodCall
  | TransSpanRecordAppCall
  | SpanRoot
  | SpanRetriever
  | SpanReranker
  | SpanLLM
  | SpanMemory
  | SpanEmbedding
  | SpanTool
  | SpanAgent
  | SpanTask
  | SpanOther
deriving DecidableEq, Repr

/-- The `__name__` of each class in the module. -/
def className : SpanClass → String
  | .Span => "Span"
  | .SpanUntyped => "SpanUntyped"
  | .TransSpanRecord => "TransSpanRecord"
  | .SpanMethodCall => "SpanMethodCall"
  | .TransSpanRecordAppCall => "TransSpanRecordAppCall"
  | .SpanRoot => "SpanRoot"
  | .SpanRetriever => "SpanRetriever"
  | .SpanReranker => "SpanReranker"
  | .SpanLLM => "SpanLLM"
  | .SpanMemory => "SpanMemory"
  | .SpanEmbedding => "SpanEmbedding"
  | .SpanTool => "SpanTool"
  | .SpanAgent => "SpanAgent"
  | .SpanTask => "SpanTask"
  | .SpanOther => "SpanOther"

/-- An attribute bound at module level in `trulens_eval.trace.span`: either
a binding whose value is one of the `Span` classes (the class statements and
the `SpanTyped` alias), or any other module attribute (imports, the
`TypeVar`, the logger, the `AttributeProperty` descriptor class, the
`SpanType` enumeration class), carried with a description of its referent. -/
inductive ModuleAttr where
  | spanClass (c : SpanClass)
  | other (descr : String)
deriving DecidableEq, Repr

/-- Every name bound at module level in `span.py`, in source order: the
`__future__` feature, each import, the logger and `TypeVar`, the
`AttributeProperty` descriptor class, every class statement, the
`SpanTyped` alias (bound to `TransSpanRecordAppCall`), and the `SpanType`
enumeration.  `TypeAdapter` is imported twice and bound once. -/
def moduleAttrs : List (String × ModuleAttr) :=
  [("annotations", .other "future feature flag"),
   ("dataclasses", .other "dataclasses module"),
   ("datetime", .other "datetime module"),
   ("Enum", .other "enum.Enum class"),
   ("getLogger", .other "logging.getLogger function"),
   ("Annotated", .other "typing.Annotated"),
   ("Any", .other "typing.Any"),
   ("Callable", .other "typing.Callable"),
   ("Dict", .other "typing.Dict"),
   ("Generic", .other "typing.Generic"),
   ("List", .other "typing.List"),
   ("Optional", .other "typing.Optional"),
   ("Type", .other "typing.Type"),
   ("TypeVar", .other "typing.TypeVar"),
   ("ot_span", .other "opentelemetry.trace.span module"),
   ("ot_types", .other "opentelemetry.util.types module"),
   ("pd", .other "pandas module"),
   ("pydantic_core", .other "pydantic_core module"),
   ("pydantic", .other "pydantic module"),
   ("computed_field", .other "pydantic.computed_field function"),
   ("Field", .other "pydantic.Field function"),
   ("TypeAdapter", .other "pydantic.TypeAdapter class"),
   ("PlainValidator", .other "pydantic.PlainValidator"),
   ("cs", .other "pydantic_core.core_schema module"),
   ("GetCoreSchemaHandler", .other "pydantic.GetCoreSchemaHandler"),
   ("GetJsonSchemaHandler", .other "pydantic.GetJsonSchemaHandler"),
   ("JsonSchemaValue", .other "pydantic.json_schema.JsonSchemaValue"),
   ("json", .other "json module"),
   ("mod_trace", .other "trulens_eval.trace module"),
   ("mod_record_schema", .other "trulens_eval.schema.record module"),
   ("JSON", .other "trulens_eval.utils.serial.JSON type"),
   ("mod_container_utils", .other "trulens_eval.utils.containers module"),
   ("logger", .other "logging.Logger instance"),
   ("T", .other "TypeVar T"),
   ("AttributeProperty", .other "AttributeProperty descriptor class"),
   ("Span", .spanClass .Span),
   ("SpanUntyped", .spanClass .SpanUntyped),
   ("TransSpanRecord", .spanClass .TransSpanRecord),
   ("SpanMethodCall", .spanClass .SpanMethodCall),
   ("TransSpanRecordAppCall", .spanClass .TransSpanRecordAppCall),
   ("SpanRoot", .spanClass .SpanRoot),
   ("SpanTyped", .spanClass .TransSpanRecordAppCall),
   ("SpanRetriever", .spanClass .SpanRetriever),
   ("SpanReranker", .spanClass .SpanReranker),
   ("SpanLLM", .spanClass .SpanLLM),
   ("SpanMemory", .spanClass .SpanMemory),
   ("SpanEmbedding", .spanClass .SpanEmbedding),
   ("SpanTool", .spanClass .SpanTool),
   ("SpanAgent", .spanClass .SpanAgent),
   ("SpanTask", .spanClass .SpanTask),
   ("SpanOther", .spanClass .SpanOther),
   ("SpanType", .other "SpanType enumeration class")]

/-- Embedding of `hasattr(mod_trace.span, name)` / `getattr(mod_trace.span,
name)` over the module-level bindings of `span.py`.  The dunder attributes
every Python module object additionally carries (`__name__`, `__doc__`, and
the like) are outside the model; no theorem below concerns a dunder-named
tag. -/
def moduleLookup (name : String) : Option ModuleAttr :=
  (moduleAttrs.find? (fun a => a.1 = name)).map Prod.snd

/-- Members of the `SpanType` enumeration, in declaration order. -/
inductive SpanTypeTag where
  | UNTYPED
  | ROOT
  | RETRIEVER
  | RERANKER
  | LLM
  | MEMORY
  | EMBEDDING
  | TOOL
  | AGENT
  | TASK
  | OTHER
deriving DecidableEq, Repr

/-- The `value` of each `SpanType` member: the `__name__` of the class it names. -/
def SpanTypeTag.value : SpanTypeTag → String
  | .UNTYPED => className .SpanUntyped
  | .ROOT => className .SpanRoot
  | .RETRIEVER => className .SpanRetriever
  | .RERANKER => className .SpanReranker
  | .LLM => className .SpanLLM
  | .MEMORY => className .SpanMemory
  | .EMBEDDING => className .SpanEmbedding
  | .TOOL => className .SpanTool
  | .AGENT => className .SpanAgent
  | .TASK => className .SpanTask
  | .OTHER => className .SpanOther

/-- The concrete span variant class each enumeration member names. -/
def SpanTypeTag.variantClass : SpanTypeTag → SpanClass
  | .UNTYPED => .SpanUntyped
  | .ROOT => .SpanRoot
  | .RETRIEVER => .SpanRetriever
  | .RERANKER => .SpanReranker
  | .LLM => .SpanLLM
  | .MEMORY => .SpanMemory
  | .EMBEDDING => .SpanEmbedding
  | .TOOL => .SpanTool
  | .AGENT => .SpanAgent
  | .TASK => .SpanTask
  | .OTHER => .SpanOther

/-- All members of the `SpanType` enumeration. -/
def spanTypeMembers : List SpanTypeTag :=
  [.UNTYPED, .ROOT, .RETRIEVER, .RERANKER, .LLM, .MEMORY, .EMBEDDING,
   .TOOL, .AGENT, .TASK, .OTHER]

/-- The string values of the `SpanType` enumeration members. -/
def spanTypeValues : List String := spanTypeMembers.map SpanTypeTag.value

/-! ## Attribute values and declared types -/

/-- Declared types of typed attribute fields, as they appear in the
`Span.attribute_property` declarations of `span.py`. -/
inductive VType where
  | tStr
  | tInt
  | tFloat
  | tBool
  | tList (elem : VType)
  | tDict
  | tSpanType
  | tJson
  | tAny
  | tOpt (elem : VType)
deriving DecidableEq, Repr

/-- Runtime attribute values.  Python floats are carried as exact rationals:
no claim performs float arithmetic, values are only stored and compared for
identity of what was written. -/
inductive Value where
  | str (s : String)
  | int (n : Int)
  | float (q : Rat)
  | bool (b : Bool)
  | vnone
  | enumTag (t : SpanTypeTag)
  | list (vs : List Value)
  | dict (entries : List (String × Value))

mutual

/-- Embedding of `TypeAdapter(typ).validate_python(value)` succeeding: the
value conforms to the declared type.  Enumeration-typed fields accept the
member itself or its string value (pydantic validates enums by value). -/
def conforms : Value → VType → Bool
  | .str _, .tStr => true
  | .int _, .tInt => true
  | .float _, .tFloat => true
  | .bool _, .tBool => true
  | .list vs, .tList t => conformsAll vs t
  | .dict _, .tDict => true
  | .enumTag _, .tSpanType => true
  | .str s, .tSpanType => spanTypeValues.contains s
  | _, .tJson => true
  | _, .tAny => true
  | .vnone, .tOpt _ => true
  | v, .tOpt t => conforms v t
  | _, _ => false

/-- Pointwise conformance of a list of values to an element type. -/
def conformsAll : List Value → VType → Bool
  | [], _ => true
  | v :: vs, t => conforms v t && conformsAll vs t

end

/-! ## Association lists with Python-dict semantics

Python `dict`: lookup finds the (unique) entry for a key; `d[k] = v`
updates an existing entry in place (keeping its position) or appends a
new one; `del d[k]` removes the entry; iteration is in insertion order.
On association lists whose keys are duplicate-free these operations
realise exactly the dict behaviour. -/

section AssocOps

variable {α : Type} {β : Type} [DecidableEq α]

/-- Value stored at a key, at its first occurrence (`d.get(k)` / `d[k]`). -/
def lookupKey : List (α × β) → α → Option β
  | [], _ => none
  | (k', v') :: rest, k => if k' = k then some v' else lookupKey rest k

/-- Store a value at a key (`d[k] = v`): replace the first occurrence in
place, or append at the end when absent. -/
def setKey : List (α × β) → α → β → List (α × β)
  | [], k, v => [(k, v)]
  | (k', v') :: rest, k, v =>
      if k' = k then (k, v) :: rest else (k', v') :: setKey rest k v

/-- Remove the entry for a key (`del d[k]`), first occurrence. -/
def eraseKey : List (α × β) → α → List (α × β)
  | [], _ => []
  | (k', v') :: rest, k => if k' = k then rest else (k', v') :: eraseKey rest k

/-- Duplicate-freedom of keys: the invariant of a Python dict. -/
def keysNodup (l : List (α × β)) : Prop := (l.map Prod.fst).Nodup

theorem lookupKey_setKey_self (l : List (α × β)) (k : α) (v : β) :
    lookupKey (setKey l k v) k = some v := by
  induction l with
  | nil => simp [setKey, lookupKey]
  | cons hd tl ih =>
      obtain ⟨k', v'⟩ := hd
      by_cases h : k' = k
      · simp [setKey, lookupKey, h]
      · simp [setKey, lookupKey, h, ih]

theorem lookupKey_setKey_ne (l : List (α × β)) (k k' : α) (v : β) (h : k' ≠ k) :
    lookupKey (setKey l k v) k' = lookupKey l k' := by
  induction l with
  | nil => simp [setKey, lookupKey, Ne.symm h]
  | cons hd tl ih =>
      obtain ⟨k0, v0⟩ := hd
      by_cases h0 : k0 = k
      · subst h0
        simp [setKey, lookupKey, Ne.symm h]
      · simp only [setKey, h0, if_false, lookupKey]
        by_cases h1 : k0 = k'
        · simp [h1]
        · simp [h1, ih]

theorem mem_of_mem_eraseKey {l : List (α × β)} {k : α} {x : α × β}
    (hx : x ∈ eraseKey l k) : x ∈ l := by
  induction l with
  | nil => simp [eraseKey] at hx
  | cons hd tl ih =>
      obtain ⟨k0, v0⟩ := hd
      by_cases h0 : k0 = k
      · simp only [eraseKey, h0, if_true] at hx
        exact List.mem_cons_of_mem _ hx
      · simp only [eraseKey, h0, if_false, List.mem_cons] at hx
        rcases hx with hx | hx
        · exact hx ▸ List.mem_cons_self _ _
        · exact List.mem_cons_of_mem _ (ih hx)

theorem key_ne_of_mem_eraseKey {l : List (α × β)} {k : α} {x : α × β}
    (hnd : keysNodup l) (hx : x ∈ eraseKey l k) : x.1 ≠ k := by
  induction l with
  | nil => simp [eraseKey] at hx
  | cons hd tl ih =>
      obtain ⟨k0, v0⟩ := hd
      simp only [keysNodup, List.map_cons, List.nodup_cons] at hnd
      by_cases h0 : k0 = k
      · subst h0
        simp only [eraseKey, if_true] at hx
        intro hk
        exact hnd.1 (hk ▸ List.mem_map_of_mem Prod.fst hx)
      · simp only [eraseKey, h0, if_false, List.mem_cons] at hx
        rcases hx with hx | hx
        · subst hx; exact h0
        · exact ih hnd.2 hx

theorem lookupKey_eq_none_of_keys_ne {l : List (α × β)} {k : α}
    (h : ∀ x ∈ l, x.1 ≠ k) : lookupKey l k = none := by
  induction l with
  | nil => rfl
  | cons hd tl ih =>
      obtain ⟨k0, v0⟩ := hd
      have hk0 : k0 ≠ k := h (k0, v0) (List.mem_cons_self _ _)
      simp only [lookupKey, hk0, if_false]
      exact ih (fun x hx => h x (List.mem_cons_of_mem _ hx))

theorem lookupKey_eraseKey_self {l : List (α × β)} {k : α} (hnd : keysNodup l) :
    lookupKey (eraseKey l k) k = none :=
  lookupKey_eq_none_of_keys_ne (fun _ hx => key_ne_of_mem_eraseKey hnd hx)

theorem keys_setKey_sub {l : List (α × β)} {k a : α} {v : β}
    (ha : a ∈ (setKey l k v).map Prod.fst) : a ∈ l.map Prod.fst ∨ a = k := by
  induction l with
  | nil => simp [setKey] at ha; exact Or.inr ha
  | cons hd tl ih =>
      obtain ⟨k0, v0⟩ := hd
      by_cases h0 : k0 = k
      · subst h0
        simp only [setKey, if_true, List.map_cons, List.mem_cons] at ha
        rcases ha with ha | ha
        · exact Or.inr ha
        · exact Or.inl (by simp [ha])
      · simp only [setKey, h0, if_false, List.map_cons, List.mem_cons] at ha
        rcases ha with ha | ha
        · exact Or.inl (by simp [ha])
        · rcases ih ha with h | h
          · exact Or.inl (List.mem_cons_of_mem _ h)
          · exact Or.inr h

theorem keysNodup_setKey (l : List (α × β)) (k : α) (v : β) (hnd : keysNodup l) :
    keysNodup (setKey l k v) := by
  induction l with
  | nil => simp [setKey, keysNodup]
  | cons hd tl ih =>
      obtain ⟨k0, v0⟩ := hd
      simp only [keysNodup, List.map_cons, List.nodup_cons] at hnd
      by_cases h0 : k0 = k
      · subst h0
        simp only [setKey, if_true, keysNodup, List.map_cons, List.nodup_cons]
        exact ⟨hnd.1, hnd.2⟩
      · simp only [setKey, h0, if_false, keysNodup, List.map_cons, List.nodup_cons]
        refine ⟨fun hmem => ?_, ih hnd.2⟩
        rcases keys_setKey_sub hmem with h | h
        · exact hnd.1 h
        · exact h0 h

theorem keys_eraseKey_sublist (l : List (α × β)) (k : α) :
    ((eraseKey l k).map Prod.fst).Sublist (l.map Prod.fst) := by
  induction l with
  | nil => simp [eraseKey]
  | cons hd tl ih =>
      obtain ⟨k0, v0⟩ := hd
      by_cases h0 : k0 = k
      · simp only [eraseKey, h0, if_true, List.map_cons]
        exact (List.sublist_cons_self _ _)
      · simp only [eraseKey, h0, if_false, List.map_cons]
        exact ih.cons₂ k0

theorem keysNodup_eraseKey (l : List (α × β)) (k : α) (hnd : keysNodup l) :
    keysNodup (eraseKey l k) :=
  (keys_eraseKey_sublist l k).nodup hnd

theorem filter_setKey_of_all_false {l : List (α × β)} {p : α × β → Bool}
    (hl : ∀ x ∈ l, p x = false) {k : α} {v : β} (hkv : p (k, v) = true) :
    (setKey l k v).filter p = [(k, v)] := by
  induction l with
  | nil => simp [setKey, List.filter, hkv]
  | cons hd tl ih =>
      obtain ⟨k0, v0⟩ := hd
      have hh : p (k0, v0) = false := hl (k0, v0) (List.mem_cons_self _ _)
      by_cases h0 : k0 = k
      · subst h0
        have htl : ∀ x ∈ tl, p x = false := fun x hx => hl x (List.mem_cons_of_mem _ hx)
        simp only [setKey, if_true, List.filter, hkv]
        have : tl.filter p = [] := List.filter_eq_nil_iff.mpr (by
          intro x hx; simp [htl x hx])
        simp [this]
      · have htl : ∀ x ∈ tl, p x = false := fun x hx => hl x (List.mem_cons_of_mem _ hx)
        simp only [setKey, h0, if_false, List.filter, hh]
        exact ih htl

theorem find?_setKey_of_all_false {l : List (α × β)} {p : α × β → Bool}
    (hl : ∀ x ∈ l, p x = false) {k : α} {v : β} (hkv : p (k, v) = true) :
    (setKey l k v).find? p = some (k, v) := by
  induction l with
  | nil => simp [setKey, List.find?, hkv]
  | cons hd tl ih =>
      obtain ⟨k0, v0⟩ := hd
      have hh : p (k0, v0) = false := hl (k0, v0) (List.mem_cons_self _ _)
      by_cases h0 : k0 = k
      · subst h0
        simp [setKey, List.find?, hkv]
      · have htl : ∀ x ∈ tl, p x = false := fun x hx => hl x (List.mem_cons_of_mem _ hx)
        simp only [setKey, h0, if_false, List.find?, hh]
        exact ih htl

end AssocOps

/-! ## Errors -/

/-- Error taxonomy of the attribute and taxonomy layer. `typeMismatch` is the
pydantic `ValidationError` raised by `TypeAdapter.validate_python` inside
`AttributeProperty.__set__`; `keyNotFound` the `KeyError` of `__delete__`;
`unknownSpanType` the `ValueError` raised by `SpanType.to_class`. -/
inductive SpanError where
  | typeMismatch
  | keyNotFound
  | unknownSpanType (tag : String)
deriving DecidableEq, Repr

/-! ## Attribute properties -/

/-- Attribute store of one span: the OpenTelemetry `attributes` dict. -/
abbrev Attrs := List (String × Value)

/-- Modelled from the spec: `Span.vendor_attr` is provided by the `OTSpan`
base class, which is not part of the source tree.  Per the spec, every key
written by a typed accessor is namespaced with a fixed vendor prefix. -/
def vendor_attr (name : String) : String := "trulens_eval@" ++ name

/-- One typed attribute field of a span variant, after `init_forward` has
resolved `typ_factory`/`default_factory`: the state of an
`AttributeProperty` descriptor in `span.py`. -/
structure AttributeProperty where
  name : String
  typ : Option VType
  default : Option Value

/-- Embedding of `AttributeProperty.__get__`:
`obj.attributes.get(obj.vendor_attr(self.name), self.default)`. -/
def propGet (p : AttributeProperty) (a : Attrs) : Option Value :=
  match lookupKey a (vendor_attr p.name) with
  | some v => some v
  | none => p.default

/-- Embedding of `AttributeProperty.__set__`: validate against the declared
type when one is known (raising `TypeMismatch` on failure), then store the
original value under the namespaced key. -/
def propSet (p : AttributeProperty) (a : Attrs) (v : Value) : Except SpanError Attrs :=
  match p.typ with
  | some t =>
      if conforms v t then .ok (setKey a (vendor_attr p.name) v)
      else .error .typeMismatch
  | none => .ok (setKey a (vendor_attr p.name) v)

/-- State of the attribute store after an attempted write: the new store on
success, the untouched prior store when the write raised. -/
def applySet (p : AttributeProperty) (a : Attrs) (v : Value) : Attrs :=
  match propSet p a v with
  | .ok a' => a'
  | .error _ => a

/-- Embedding of `AttributeProperty.__delete__`:
`del obj.attributes[obj.vendor_attr(self.name)]`, `KeyError` when absent. -/
def propDelete (p : AttributeProperty) (a : Attrs) : Except SpanError Attrs :=
  match lookupKey a (vendor_attr p.name) with
  | some _ => .ok (eraseKey a (vendor_attr p.name))
  | none => .error .keyNotFound

/-! ## Per-variant field tables

One entry per `attribute_property` declaration in `span.py`, with the
declared type and the default after `init_forward` resolution. -/

/-- Base field `tags = attribute_property("tags", typ=List[str], default_factory=list)`. -/
def tagsProp : AttributeProperty :=
  { name := "tags", typ := some (.tList .tStr), default := some (.list []) }

/-- Base field `span_type` with `typ_factory=lambda: SpanType` and
`default_factory=lambda: SpanType.UNTYPED`. -/
def spanTypeProp : AttributeProperty :=
  { name := "span_type", typ := some .tSpanType, default := some (.enumTag .UNTYPED) }

/-- Field `record_id = attribute_property("record_id", typ=str, default=None)`. -/
def recordIdProp : AttributeProperty :=
  { name := "record_id", typ := some .tStr, default := none }

/-- Field `inputs` of `SpanMethodCall`, typed `Optional[Dict[str, Any]]`. -/
def inputsProp : AttributeProperty :=
  { name := "inputs", typ := some (.tOpt .tDict), default := none }

/-- Field `output` of `SpanMethodCall`, typed `Optional[JSON]`. -/
def outputProp : AttributeProperty :=
  { name := "output", typ := some (.tOpt .tJson), default := none }

/-- Field `error` of `SpanMethodCall`, typed `Optional[Any]`. -/
def errorProp : AttributeProperty :=
  { name := "error", typ := some (.tOpt .tAny), default := none }

/-- Field `query_text` shared by `SpanRetriever` and `SpanReranker`. -/
def queryTextProp : AttributeProperty :=
  { name := "query_text", typ := some .tStr, default := none }

/-- Field `query_embedding` of `SpanRetriever`, typed `List[float]`. -/
def queryEmbeddingProp : AttributeProperty :=
  { name := "query_embedding", typ := some (.tList .tFloat), default := none }

/-- Field `distance_type` of `SpanRetriever`. -/
def distanceTypeProp : AttributeProperty :=
  { name := "distance_type", typ := some .tStr, default := none }

/-- Field `num_contexts` of `SpanRetriever`. -/
def numContextsProp : AttributeProperty :=
  { name := "num_contexts", typ := some .tInt, default := none }

/-- Field `retrieved_contexts` of `SpanRetriever`, typed `List[str]`. -/
def retrievedContextsProp : AttributeProperty :=
  { name := "retrieved_contexts", typ := some (.tList .tStr), default := none }

/-- Field `retrieved_scores` of `SpanRetriever`, typed `List[float]`. -/
def retrievedScoresProp : AttributeProperty :=
  { name := "retrieved_scores", typ := some (.tList .tFloat), default := none }

/-- Field `retrieved_embeddings` of `SpanRetriever`, typed `List[List[float]]`. -/
def retrievedEmbeddingsProp : AttributeProperty :=
  { name := "retrieved_embeddings", typ := some (.tList (.tList .tFloat)), default := none }

/-- Field `model_name` shared by `SpanReranker`, `SpanLLM`, `SpanEmbedding`. -/
def modelNameProp : AttributeProperty :=
  { name := "model_name", typ := some .tStr, default := none }

/-- Field `top_n` of `SpanReranker`. -/
def topNProp : AttributeProperty :=
  { name := "top_n", typ := some .tInt, default := none }

/-- Field `input_context_texts` of `SpanReranker`. -/
def inputContextTextsProp : AttributeProperty :=
  { name := "input_context_texts", typ := some (.tList .tStr), default := none }

/-- Field `input_context_scores` of `SpanReranker`, typed `Optional[List[float]]`. -/
def inputContextScoresProp : AttributeProperty :=
  { name := "input_context_scores", typ := some (.tOpt (.tList .tFloat)), default := none }

/-- Field `output_ranks` of `SpanReranker`, typed `List[int]`. -/
def outputRanksProp : AttributeProperty :=
  { name := "output_ranks", typ := some (.tList .tInt), default := none }

/-- Field `model_type` of `SpanLLM`. -/
def modelTypeProp : AttributeProperty :=
  { name := "model_type", typ := some .tStr, default := none }

/-- Field `temperature` of `SpanLLM`. -/
def temperatureProp : AttributeProperty :=
  { name := "temperature", typ := some .tFloat, default := none }

/-- Field `input_messages` of `SpanLLM`, typed `List[dict]`. -/
def inputMessagesProp : AttributeProperty :=
  { name := "input_messages", typ := some (.tList .tDict), default := none }

/-- Field `input_token_count` of `SpanLLM`. -/
def inputTokenCountProp : AttributeProperty :=
  { name := "input_token_count", typ := some .tInt, default := none }

/-- Field `output_messages` of `SpanLLM`, typed `List[dict]`. -/
def outputMessagesProp : AttributeProperty :=
  { name := "output_messages", typ := some (.tList .tDict), default := none }

/-- Field `output_token_count` of `SpanLLM`. -/
def outputTokenCountProp : AttributeProperty :=
  { name := "output_token_count", typ := some .tInt, default := none }

/-- Field `cost` of `SpanLLM`. -/
def costProp : AttributeProperty :=
  { name := "cost", typ := some .tFloat, default := none }

/-- Field `memory_type` of `SpanMemory`. -/
def memoryTypeProp : AttributeProperty :=
  { name := "memory_type", typ := some .tStr, default := none }

/-- Field `remembered` of `SpanMemory`. -/
def rememberedProp : AttributeProperty :=
  { name := "remembered", typ := some .tStr, default := none }

/-- Field `input_text` of `SpanEmbedding`. -/
def inputTextProp : AttributeProperty :=
  { name := "input_text", typ := some .tStr, default := none }

/-- Field `embedding` of `SpanEmbedding`, typed `List[float]`. -/
def embeddingProp : AttributeProperty :=
  { name := "embedding", typ := some (.tList .tFloat), default := none }

/-- Field `description` shared by `SpanTool` and `SpanAgent`. -/
def descriptionProp : AttributeProperty :=
  { name := "description", typ := some .tStr, default := none }

/-- Typed fields declared on the base `Span` class. -/
def baseFields : List AttributeProperty := [tagsProp, spanTypeProp]

/-- Typed fields of `TransSpanRecord` (inherited plus own). -/
def transRecordFields : List AttributeProperty := baseFields ++ [recordIdProp]

/-- Typed fields of `SpanMethodCall` (inherited plus own). -/
def methodCallFields : List AttributeProperty :=
  transRecordFields ++ [inputsProp, outputProp, errorProp]

/-- Typed fields of `TransSpanRecordAppCall` alias `SpanTyped`: it adds no
attribute properties of its own. -/
def typedFields : List AttributeProperty := methodCallFields

/-- All typed attribute fields of each span class, inherited fields included. -/
def fieldsOf : SpanClass → List AttributeProperty
  | .Span => baseFields
  | .SpanUntyped => baseFields
  | .TransSpanRecord => transRecordFields
  | .SpanMethodCall => methodCallFields
  | .TransSpanRecordAppCall => typedFields
  | .SpanRoot => transRecordFields
  | .SpanRetriever =>
      typedFields ++ [queryTextProp, queryEmbeddingProp, distanceTypeProp,
        numContextsProp, retrievedContextsProp, retrievedScoresProp,
        retrievedEmbeddingsProp]
  | .SpanReranker =>
      typedFields ++ [queryTextProp, modelNameProp, topNProp,
        inputContextTextsProp, inputContextScoresProp, outputRanksProp]
  | .SpanLLM =>
      typedFields ++ [modelNameProp, modelTypeProp, temperatureProp,
        inputMessagesProp, inputTokenCountProp, outputMessagesProp,
        outputTokenCountProp, costProp]
  | .SpanMemory => typedFields ++ [memoryTypeProp, rememberedProp]
  | .SpanEmbedding => typedFields ++ [inputTextProp, modelNameProp, embeddingProp]
  | .SpanTool => typedFields ++ [descriptionProp]
  | .SpanAgent => typedFields ++ [descriptionProp]
  | .SpanTask => typedFields
  | .SpanOther => typedFields

/-! ## Spans, links and parent management -/

/-- OpenTelemetry span context: the identity pair carried by links. -/
structure SpanContext where
  trace_id : Nat
  span_id : Nat
deriving DecidableEq, Repr

/-- Relationship attributes carried on one link. -/
abbrev LinkAttrs := List (String × Value)

/-- Link set of a span: a dict from target context to link attributes, as
iterated by `self.links.items()` and indexed by `del self.links[ctx]`. -/
abbrev Links := List (SpanContext × LinkAttrs)

/-- Shallow state of one `Span` object: identity, timing, the attributes
dict and the links dict. -/
structure Span where
  context : SpanContext
  start_timestamp : Nat
  end_timestamp : Nat
  attributes : Attrs
  links : Links

/-- Key under which the relationship marker is stored on a link. -/
def relationshipKey : String := vendor_attr "relationship"

/-- Link attributes designating a parent link, as built by the
`parent_context` setter. -/
def parentLinkAttrs : LinkAttrs := [(relationshipKey, .str "parent")]

/-- Test of the `parent_context` getter's loop condition:
`link_attributes.get(self.vendor_attr("relationship")) == "parent"`. -/
def isParentLink (la : LinkAttrs) : Bool :=
  match lookupKey la relationshipKey with
  | some (.str s) => s = "parent"
  | _ => false

/-- Modelled from the spec: `OTSpan.add_link` is provided by the base class,
which is not part of the source tree.  Per the spec a span's links are a set
of (target-span-reference, relationship-attributes) pairs; `add_link` stores
the attributes under the target context in the links dict. -/
def Span.add_link (s : Span) (ctx : SpanContext) (la : LinkAttrs) : Span :=
  { s with links := setKey s.links ctx la }

/-- Embedding of the `Span.parent_context` getter: scan the links in order
and return the context of the first link whose relationship attribute is
`"parent"`, or `None`. -/
def Span.parent_context (s : Span) : Option SpanContext :=
  (s.links.find? (fun l => isParentLink l.2)).map Prod.fst

/-- Embedding of the `Span.parent_context` setter: `None` returns without
effect; otherwise delete the link of the existing parent, if any, then add
a link to the new parent carrying the relationship marker. -/
def Span.set_parent_context (s : Span) (v : Option SpanContext) : Span :=
  match v with
  | none => s
  | some ctx =>
      let s1 :=
        match s.parent_context with
        | some p => { s with links := eraseKey s.links p }
        | none => s
      s1.add_link ctx parentLinkAttrs

/-- Embedding of the `Span.parent_span_id` property. -/
def Span.parent_span_id (s : Span) : Option Nat :=
  match s.parent_context with
  | some c => some c.span_id
  | none => none

/-- Number of parent links in a link set. -/
def parentCount (l : Links) : Nat := (l.filter (fun x => isParentLink x.2)).length

/-! ## Metadata namespace -/

/-- Modelled from the spec: `DictNamespace` (from `utils/containers.py`,
not in the source tree) exposes the keys of a sub-namespace of the parent
dict; per the spec every key it writes is the namespace joined with the
entry key.  This is the raw attributes key backing metadata entry `k`. -/
def metadataKey (k : String) : String := vendor_attr "metadata" ++ "." ++ k

/-- Metadata entry read through the `attributes_metadata` namespace view. -/
def Span.metadata_get (s : Span) (k : String) : Option Value :=
  lookupKey s.attributes (metadataKey k)

/-- Embedding of the `Span.metadata` setter:
`for k, v in value.items(): self.attributes_metadata[k] = v`. -/
def Span.metadata_set (s : Span) (d : List (String × Value)) : Span :=
  d.foldl
    (fun s' kv => { s' with attributes := setKey s'.attributes (metadataKey kv.1) kv.2 })
    s

/-! ## Construction -/

/-- Embedding of `Span.__init__`: after the base initialisation populates the
object from the keyword arguments, the constructor stores the constructing
class's `__name__` under the vendored `span_type` attribute key. -/
def mk_span (c : SpanClass) (ctx : SpanContext) (st et : Nat)
    (initAttrs : Attrs) (links : Links) : Span :=
  { context := ctx
    start_timestamp := st
    end_timestamp := et
    attributes := setKey initAttrs (vendor_attr "span_type") (.str (className c))
    links := links }

/-! ## Taxonomy dispatch -/

/-- Embedding of the body of `SpanType.to_class` on an arbitrary tag value:
`getattr(mod_trace.span, value)` when the module has the attribute —
whatever that attribute is, class or not — else the `ValueError`
(`UnknownSpanType`). -/
def to_class_of_value (v : String) : Except SpanError ModuleAttr :=
  match moduleLookup v with
  | some a => .ok a
  | none => .error (.unknownSpanType v)

/-- Embedding of `SpanType.to_class` on an enumeration member. -/
def SpanTypeTag.to_class (t : SpanTypeTag) : Except SpanError ModuleAttr :=
  to_class_of_value t.value

/-! ## Timestamp conversion -/

/-- Modelled from the spec: the datetime view of a nanosecond tick
(`datetime_of_ns_timestamp` from `utils/containers.py`, not in the source
tree).  Per the spec the datetime views are exact inverses of the
timestamp conversion, so a datetime resolves the tick into whole epoch
seconds and the sub-second nanosecond remainder. -/
structure DateTimeV where
  epochSeconds : Nat
  nanoseconds : Nat

/-- Modelled from the spec: conversion of a nanosecond tick to a datetime. -/
def datetime_of_ns_timestamp (t : Nat) : DateTimeV :=
  { epochSeconds := t / 1000000000, nanoseconds := t % 1000000000 }

/-- Modelled from the spec: conversion of a datetime back to a nanosecond tick. -/
def ns_timestamp_of_datetime (dt : DateTimeV) : Nat :=
  dt.epochSeconds * 1000000000 + dt.nanoseconds

/-- Embedding of the `Span.start_datetime` property. -/
def Span.start_datetime (s : Span) : DateTimeV :=
  datetime_of_ns_timestamp s.start_timestamp

/-- Embedding of the `Span.end_datetime` property. -/
def Span.end_datetime (s : Span) : DateTimeV :=
  datetime_of_ns_timestamp s.end_timestamp

/-- Embedding of the `Span.start_datetime` setter. -/
def Span.set_start_datetime (s : Span) (dt : DateTimeV) : Span :=
  { s with start_timestamp := ns_timestamp_of_datetime dt }

/-- Embedding of the `Span.end_datetime` setter. -/
def Span.set_end_datetime (s : Span) (dt : DateTimeV) : Span :=
  { s with end_timestamp := ns_timestamp_of_datetime dt }

/-! ## Concrete instances used in witnesses and counterexamples -/

/-- Length of a list-valued attribute. -/
def valueListLength : Value → Option Nat
  | .list vs => some vs.length
  | _ => none

/-- Context used as the first parent target in concrete instances. -/
def ctxX : SpanContext := { trace_id := 1, span_id := 3 }

/-- Context used as the second parent target in concrete instances. -/
def ctxY : SpanContext := { trace_id := 1, span_id := 4 }

/-- Context targeted by a concrete parent link. -/
def ctxP : SpanContext := { trace_id := 1, span_id := 7 }

/-- Concrete span with no links. -/
def spanBlank : Span :=
  { context := { trace_id := 1, span_id := 2 }, start_timestamp := 10,
    end_timestamp := 20, attributes := [], links := [] }

/-- Concrete span holding one parent link to `ctxP`. -/
def spanWithParent : Span :=
  { context := { trace_id := 1, span_id := 9 }, start_timestamp := 10,
    end_timestamp := 20, attributes := [], links := [(ctxP, parentLinkAttrs)] }

/-- Concrete span with prior metadata entry `a` and a third-party attribute. -/
def spanWithMetadata : Span :=
  { context := { trace_id := 1, span_id := 5 }, start_timestamp := 10,
    end_timestamp := 20,
    attributes := [(metadataKey "a", .str "x"), ("third_party", .bool true)],
    links := [] }

/-- Three retrieved context texts. -/
def ctxListThree : Value := .list [.str "c1", .str "c2", .str "c3"]

/-- Two retrieved scores. -/
def scoreListTwo : Value := .list [.float 1, .float 2]

/-- Attribute store after writing the three contexts into a fresh store. -/
def retrieverAttrs1 : Attrs := setKey [] (vendor_attr "retrieved_contexts") ctxListThree

/-- Attribute store after additionally writing the two scores. -/
def retrieverAttrs2 : Attrs :=
  setKey retrieverAttrs1 (vendor_attr "retrieved_scores") scoreListTwo

/-! ## Helper lemmas -/

theorem string_append_left_cancel (m a b : String) (h : m ++ a = m ++ b) : a = b := by
  have hd := congrArg String.data h
  simp only [String.data_append] at hd
  exact String.ext (List.append_cancel_left hd)

theorem metadataKey_injective {a b : String} (h : metadataKey a = metadataKey b) :
    a = b :=
  string_append_left_cancel _ a b h

theorem conformsAll_str (cs : List String) :
    conformsAll (cs.map Value.str) .tStr = true := by
  induction cs with
  | nil => simp [conformsAll]
  | cons c cs ih => simp [conformsAll, conforms, ih]

theorem conformsAll_float (qs : List Rat) :
    conformsAll (qs.map Value.float) .tFloat = true := by
  induction qs with
  | nil => simp [conformsAll]
  | cons q qs ih => simp [conformsAll, conforms, ih]

theorem isParentLink_parentLinkAttrs : isParentLink parentLinkAttrs = true := rfl

/-! ## Claim theorems -/

/-- C5: for every valid nanosecond tick, the `start_datetime`/`end_datetime`
views are exact inverses of the timestamp conversion: converting a span's
timestamp to a datetime and assigning that datetime back through the setter
reproduces the original timestamp, and the underlying conversion round-trips
every tick exactly. -/
theorem timestamp_datetime_roundtrip (s : Span) (t : Nat) :
    (s.set_start_datetime s.start_datetime).start_timestamp = s.start_timestamp
    ∧ (s.set_end_datetime s.end_datetime).end_timestamp = s.end_timestamp
    ∧ ns_timestamp_of_datetime (datetime_of_ns_timestamp t) = t := by
  refine ⟨?_, ?_, ?_⟩ <;>
    simp [Span.set_start_datetime, Span.set_end_datetime, Span.start_datetime,
      Span.end_datetime, ns_timestamp_of_datetime, datetime_of_ns_timestamp] <;>
    omega

/-- C9: assigning `None` as the parent context is a no-op: the span is left
unchanged, so its link set is unchanged and `parent_context` still returns
whatever parent was previously set. -/
theorem set_parent_none_noop (s : Span) :
    s.set_parent_context none = s
    ∧ (s.set_parent_context none).links = s.links
    ∧ (s.set_parent_context none).parent_context = s.parent_context :=
  ⟨rfl, rfl, rfl⟩

/-- C7: a freshly constructed span of any variant stores that variant's
class name under the vendored `span_type` attribute key, and that stored
tag resolves back to the constructing class, so the declared span type
matches the concrete class of the span. -/
theorem span_type_matches_constructing_class (c : SpanClass) (ctx : SpanContext)
    (st et : Nat) (a : Attrs) (l : Links) :
    lookupKey (mk_span c ctx st et a l).attributes (vendor_attr "span_type")
      = some (.str (className c))
    ∧ to_class_of_value (className c) = .ok (.spanClass c) := by
  refine ⟨lookupKey_setKey_self _ _ _, ?_⟩
  cases c <;> rfl

/-- C6: every member of the `SpanType` enumeration resolves through
`to_class` to the span variant class named by its value; the claim's
failure guarantee, however, does not hold of the code: the tag `"logger"`
(likewise `"T"`) names no class at all, yet `to_class` resolves it to the
module's logger object without raising, because the `hasattr` check
consults the whole module namespace rather than the class space — against
the method's declared `Type[Span]` return and its docstring.  Only a tag
absent from the module namespace raises `UnknownSpanType`. -/
theorem span_type_to_class_behavior :
    (∀ m : SpanTypeTag, m.to_class = .ok (.spanClass m.variantClass))
    ∧ to_class_of_value "logger" = .ok (.other "logging.Logger instance")
    ∧ to_class_of_value "T" = .ok (.other "TypeVar T")
    ∧ to_class_of_value "NoSuchSpan" = .error (.unknownSpanType "NoSuchSpan") := by
  refine ⟨fun m => ?_, rfl, rfl, rfl⟩
  cases m <;> rfl

/-- C1: for every span variant and every typed attribute field, reading the
field from a store in which it was never set returns the field's declared
default, and after a write of a value conforming to the declared type the
write succeeds and a read returns exactly that value. -/
theorem attribute_property_roundtrip (c : SpanClass) (p : AttributeProperty)
    (_hp : p ∈ fieldsOf c) (t : VType) (ht : p.typ = some t)
    (v : Value) (hv : conforms v t = true) :
    (∀ a : Attrs, lookupKey a (vendor_attr p.name) = none → propGet p a = p.default)
    ∧ (∀ a : Attrs, ∃ a', propSet p a v = .ok a' ∧ propGet p a' = some v) := by
  constructor
  · intro a ha
    simp [propGet, ha]
  · intro a
    refine ⟨setKey a (vendor_attr p.name) v, ?_, ?_⟩
    · simp [propSet, ht, hv]
    · simp [propGet, lookupKey_setKey_self]

/-- Witness for C1: the `query_text` field of a Retriever span reads as its
default (`None`) from an empty store, and reads back exactly `"q"` after a
conforming write of `"q"`. -/
theorem attribute_property_roundtrip_witness :
    propGet queryTextProp [] = queryTextProp.default
    ∧ ∃ a', propSet queryTextProp [] (.str "q") = .ok a'
        ∧ propGet queryTextProp a' = some (.str "q") := by
  have h := attribute_property_roundtrip .SpanRetriever queryTextProp
    (by simp [fieldsOf, typedFields, methodCallFields, transRecordFields, baseFields])
    .tStr rfl (.str "q") (by simp [conforms])
  exact ⟨h.1 [] rfl, h.2 []⟩

/-- C2: for every span variant and every typed attribute field, writing a
value that does not conform to the declared type fails with `TypeMismatch`
and leaves the attribute store untouched, so a subsequent read returns the
same result as before the failed write. -/
theorem attribute_property_type_mismatch (c : SpanClass) (p : AttributeProperty)
    (_hp : p ∈ fieldsOf c) (t : VType) (ht : p.typ = some t)
    (v : Value) (hv : conforms v t = false) :
    ∀ a : Attrs, propSet p a v = .error .typeMismatch
      ∧ applySet p a v = a
      ∧ propGet p (applySet p a v) = propGet p a := by
  intro a
  have hset : propSet p a v = .error .typeMismatch := by
    simp [propSet, ht, hv]
  have happ : applySet p a v = a := by
    simp [applySet, hset]
  exact ⟨hset, happ, by rw [happ]⟩

/-- Witness for C2: writing the integer `3` into the string-typed
`query_text` field of a Retriever span over a store holding `"q"` raises
`TypeMismatch` and the subsequent read still returns `"q"`. -/
theorem attribute_property_type_mismatch_witness :
    propSet queryTextProp [(vendor_attr "query_text", .str "q")] (.int 3)
        = .error .typeMismatch
    ∧ propGet queryTextProp
        (applySet queryTextProp [(vendor_attr "query_text", .str "q")] (.int 3))
        = some (.str "q") := by
  have h := attribute_property_type_mismatch .SpanRetriever queryTextProp
    (by simp [fieldsOf, typedFields, methodCallFields, transRecordFields, baseFields])
    .tStr rfl (.int 3) (by simp [conforms])
    [(vendor_attr "query_text", .str "q")]
  refine ⟨h.1, h.2.2.trans ?_⟩
  simp [propGet, lookupKey, queryTextProp, vendor_attr]

/-- C8 counterexample: writing `retrieved_contexts` of length 3 and then
`retrieved_scores` of length 2 into a Retriever span's store is accepted:
both writes succeed (no rejection, no flag of any kind), and the store then
holds parallel fields of lengths 3 and 2. -/
theorem retriever_parallel_lengths_cex :
    propSet retrievedContextsProp [] ctxListThree = .ok retrieverAttrs1
    ∧ propSet retrievedScoresProp retrieverAttrs1 scoreListTwo = .ok retrieverAttrs2
    ∧ propGet retrievedContextsProp retrieverAttrs2 = some ctxListThree
    ∧ propGet retrievedScoresProp retrieverAttrs2 = some scoreListTwo
    ∧ valueListLength ctxListThree = some 3
    ∧ valueListLength scoreListTwo = some 2 := by
  refine ⟨?_, ?_, ?_, ?_, rfl, rfl⟩
  · simp [propSet, retrievedContextsProp, conforms, conformsAll, ctxListThree,
      retrieverAttrs1]
  · simp [propSet, retrievedScoresProp, conforms, conformsAll, scoreListTwo,
      retrieverAttrs2]
  · simp [propGet, retrievedContextsProp, retrieverAttrs2, retrieverAttrs1,
      setKey, lookupKey, vendor_attr]
  · simp [propGet, retrievedScoresProp, retrieverAttrs2, retrieverAttrs1,
      setKey, lookupKey, vendor_attr]

/-- C8 (amended): writes to the Retriever parallel fields validate only the
field's own declared element type; any list of strings is accepted for
`retrieved_contexts` and any list of floats for `retrieved_scores`,
whatever their lengths, so the same-length invariant is documented but not
enforced by the attribute layer. -/
theorem retriever_parallel_lengths_not_enforced
    (cs : List String) (qs : List Rat) (a b : Attrs) :
    (∃ a', propSet retrievedContextsProp a (.list (cs.map Value.str)) = .ok a')
    ∧ (∃ b', propSet retrievedScoresProp b (.list (qs.map Value.float)) = .ok b') := by
  constructor
  · refine ⟨setKey a (vendor_attr "retrieved_contexts") (.list (cs.map Value.str)), ?_⟩
    simp [propSet, retrievedContextsProp, conforms, conformsAll_str]
  · refine ⟨setKey b (vendor_attr "retrieved_scores") (.list (qs.map Value.float)), ?_⟩
    simp [propSet, retrievedScoresProp, conforms, conformsAll_float]

theorem all_false_of_find?_none {l : Links}
    (h : l.find? (fun x => isParentLink x.2) = none) :
    ∀ x ∈ l, isParentLink x.2 = false := by
  intro x hx
  have := List.find?_eq_none.mp h x hx
  simpa using this

theorem parent_filter_singleton {l : Links} {P : SpanContext} {aP : LinkAttrs}
    (hpc : parentCount l ≤ 1)
    (hfind : l.find? (fun x => isParentLink x.2) = some (P, aP)) :
    l.filter (fun x => isParentLink x.2) = [(P, aP)] := by
  have hmem : (P, aP) ∈ l := List.mem_of_find?_eq_some hfind
  have hP : isParentLink aP = true := by
    have := List.find?_some hfind
    simpa using this
  have hmemf : (P, aP) ∈ l.filter (fun x => isParentLink x.2) :=
    List.mem_filter.mpr ⟨hmem, hP⟩
  have hpos : 0 < (l.filter (fun x => isParentLink x.2)).length :=
    List.length_pos.mpr (List.ne_nil_of_mem hmemf)
  have hle : (l.filter (fun x => isParentLink x.2)).length ≤ 1 := hpc
  have hlen1 : (l.filter (fun x => isParentLink x.2)).length = 1 := by omega
  obtain ⟨y, hy⟩ := List.length_eq_one.mp hlen1
  rw [hy] at hmemf ⊢
  simp only [List.mem_singleton] at hmemf
  rw [hmemf]

theorem erase_parent_all_false {l : Links} {P : SpanContext} {aP : LinkAttrs}
    (hnd : keysNodup l) (hpc : parentCount l ≤ 1)
    (hfind : l.find? (fun x => isParentLink x.2) = some (P, aP)) :
    ∀ x ∈ eraseKey l P, isParentLink x.2 = false := by
  intro x hx
  have hxl : x ∈ l := mem_of_mem_eraseKey hx
  have hxP : x.1 ≠ P := key_ne_of_mem_eraseKey hnd hx
  by_contra hc
  have hx_true : isParentLink x.2 = true := by
    revert hc; cases isParentLink x.2 <;> simp
  have hxf : x ∈ l.filter (fun z => isParentLink z.2) :=
    List.mem_filter.mpr ⟨hxl, hx_true⟩
  rw [parent_filter_singleton hpc hfind] at hxf
  simp only [List.mem_singleton] at hxf
  exact hxP (by rw [hxf])

theorem set_parent_links_eq (s : Span) (ctx : SpanContext)
    (hnd : keysNodup s.links) (hpc : parentCount s.links ≤ 1) :
    ∃ base : Links,
      (∀ x ∈ base, isParentLink x.2 = false) ∧ keysNodup base ∧
      (s.set_parent_context (some ctx)).links = setKey base ctx parentLinkAttrs := by
  cases hfind : s.links.find? (fun x => isParentLink x.2) with
  | none =>
      refine ⟨s.links, all_false_of_find?_none hfind, hnd, ?_⟩
      simp [Span.set_parent_context, Span.parent_context, hfind, Span.add_link]
  | some y =>
      obtain ⟨P, aP⟩ := y
      refine ⟨eraseKey s.links P, erase_parent_all_false hnd hpc hfind,
        keysNodup_eraseKey _ _ hnd, ?_⟩
      simp [Span.set_parent_context, Span.parent_context, hfind, Span.add_link]

theorem set_parent_parent_context (s : Span) (ctx : SpanContext)
    (hnd : keysNodup s.links) (hpc : parentCount s.links ≤ 1) :
    (s.set_parent_context (some ctx)).parent_context = some ctx := by
  obtain ⟨base, hall, _, hlinks⟩ := set_parent_links_eq s ctx hnd hpc
  have hfind := @find?_setKey_of_all_false SpanContext LinkAttrs _ base _ hall
    ctx parentLinkAttrs isParentLink_parentLinkAttrs
  unfold Span.parent_context
  rw [hlinks, hfind]
  rfl

theorem set_parent_count (s : Span) (ctx : SpanContext)
    (hnd : keysNodup s.links) (hpc : parentCount s.links ≤ 1) :
    parentCount (s.set_parent_context (some ctx)).links = 1 := by
  obtain ⟨base, hall, _, hlinks⟩ := set_parent_links_eq s ctx hnd hpc
  have hfilter := @filter_setKey_of_all_false SpanContext LinkAttrs _ base _ hall
    ctx parentLinkAttrs isParentLink_parentLinkAttrs
  unfold parentCount
  rw [hlinks, hfilter]
  rfl

theorem set_parent_nodup (s : Span) (ctx : SpanContext)
    (hnd : keysNodup s.links) (hpc : parentCount s.links ≤ 1) :
    keysNodup (s.set_parent_context (some ctx)).links := by
  obtain ⟨base, _, hbnd, hlinks⟩ := set_parent_links_eq s ctx hnd hpc
  rw [hlinks]
  exact keysNodup_setKey _ _ _ hbnd

theorem foldl_set_parent_invariant (cs : List SpanContext) (s : Span)
    (hnd : keysNodup s.links) (hpc : parentCount s.links ≤ 1) :
    keysNodup ((cs.foldl (fun u c => u.set_parent_context (some c)) s).links)
    ∧ parentCount ((cs.foldl (fun u c => u.set_parent_context (some c)) s).links) ≤ 1 := by
  induction cs generalizing s with
  | nil => exact ⟨hnd, hpc⟩
  | cons c cs ih =>
      simp only [List.foldl_cons]
      exact ih _ (set_parent_nodup s c hnd hpc) (le_of_eq (set_parent_count s c hnd hpc))

/-- C3: starting from any span respecting the dict invariant with at most
one parent link, setting the parent to `X` and then to `Y ≠ X` leaves
exactly one parent link, `parent_context` returns `Y`, and no link to `X`
remains in the link set; moreover any sequence of non-null parent
assignments keeps the number of parent links at most one. -/
theorem parent_link_uniqueness (s : Span) (X Y : SpanContext)
    (hnd : keysNodup s.links) (hpc : parentCount s.links ≤ 1) (hXY : X ≠ Y) :
    parentCount ((s.set_parent_context (some X)).set_parent_context (some Y)).links = 1
    ∧ ((s.set_parent_context (some X)).set_parent_context (some Y)).parent_context
        = some Y
    ∧ lookupKey ((s.set_parent_context (some X)).set_parent_context (some Y)).links X
        = none
    ∧ ∀ cs : List SpanContext,
        parentCount ((cs.foldl (fun u c => u.set_parent_context (some c)) s).links) ≤ 1 := by
  have hnd1 : keysNodup (s.set_parent_context (some X)).links :=
    set_parent_nodup s X hnd hpc
  have hpc1 : parentCount (s.set_parent_context (some X)).links ≤ 1 :=
    le_of_eq (set_parent_count s X hnd hpc)
  have hparent1 : (s.set_parent_context (some X)).parent_context = some X :=
    set_parent_parent_context s X hnd hpc
  refine ⟨set_parent_count _ Y hnd1 hpc1, set_parent_parent_context _ Y hnd1 hpc1,
    ?_, fun cs => (foldl_set_parent_invariant cs s hnd hpc).2⟩
  generalize hgen : s.set_parent_context (some X) = s1 at hnd1 hpc1 hparent1 ⊢
  have hlinks2 : (s1.set_parent_context (some Y)).links
      = setKey (eraseKey s1.links X) Y parentLinkAttrs := by
    simp only [Span.set_parent_context, hparent1, Span.add_link]
  rw [hlinks2, lookupKey_setKey_ne _ _ _ _ hXY,
    lookupKey_eraseKey_self hnd1]

/-- Witness for C3: from a span with no links, setting parent `ctxX` then
`ctxY` yields exactly one parent link, parent `ctxY`, no remaining link to
`ctxX`, and a three-assignment sequence also leaves at most one parent link. -/
theorem parent_link_uniqueness_witness :
    parentCount ((spanBlank.set_parent_context (some ctxX)).set_parent_context
        (some ctxY)).links = 1
    ∧ ((spanBlank.set_parent_context (some ctxX)).set_parent_context
        (some ctxY)).parent_context = some ctxY
    ∧ lookupKey ((spanBlank.set_parent_context (some ctxX)).set_parent_context
        (some ctxY)).links ctxX = none
    ∧ parentCount (([ctxX, ctxY, ctxX].foldl
        (fun u c => u.set_parent_context (some c)) spanBlank).links) ≤ 1 := by
  obtain ⟨h1, h2, h3, h4⟩ := parent_link_uniqueness spanBlank ctxX ctxY
    (by simp [keysNodup, spanBlank]) (by simp [parentCount, spanBlank])
    (by simp [ctxX, ctxY])
  exact ⟨h1, h2, h3, h4 [ctxX, ctxY, ctxX]⟩

/-- C4: a span's `parent_span_id` is `None` exactly when its link set
contains no link whose relationship attribute is `"parent"`, and when the
scan of the links finds a parent link, `parent_span_id` is the span id of
that link's target context. -/
theorem parent_span_id_follows_link (s : Span) :
    (s.parent_span_id = none ↔ ∀ x ∈ s.links, isParentLink x.2 = false)
    ∧ (∀ x, s.links.find? (fun l => isParentLink l.2) = some x →
        s.parent_span_id = some x.1.span_id) := by
  constructor
  · have hiff : s.links.find? (fun l => isParentLink l.2) = none
        ↔ ∀ x ∈ s.links, isParentLink x.2 = false := by
      rw [List.find?_eq_none]
      constructor
      · intro h x hx
        have := h x hx
        simpa using this
      · intro h x hx
        simp [h x hx]
    rw [← hiff]
    unfold Span.parent_span_id Span.parent_context
    cases hfind : s.links.find? (fun l => isParentLink l.2) <;> simp
  · intro x hx
    unfold Span.parent_span_id Span.parent_context
    rw [hx]
    rfl

/-- Witness for C4: a span whose only link is a parent link to `ctxP`
reports `parent_span_id = 7`, and a span with no links reports `None`. -/
theorem parent_span_id_follows_link_witness :
    spanWithParent.parent_span_id = some 7
    ∧ spanBlank.parent_span_id = none := by
  constructor
  · exact (parent_span_id_follows_link spanWithParent).2 (ctxP, parentLinkAttrs) rfl
  · exact (parent_span_id_follows_link spanBlank).1.mpr (by simp [spanBlank])

theorem lookupKey_ne_none_of_mem {α β : Type} [DecidableEq α]
    {l : List (α × β)} {x : α × β} (hx : x ∈ l) : lookupKey l x.1 ≠ none := by
  induction l with
  | nil => simp at hx
  | cons hd tl ih =>
      obtain ⟨k0, v0⟩ := hd
      rcases List.mem_cons.mp hx with rfl | hx
      · simp [lookupKey]
      · by_cases h0 : k0 = x.1
        · simp [lookupKey, h0]
        · simpa [lookupKey, h0] using ih hx

theorem metadata_set_lookup_other (d : List (String × Value)) (s : Span) (key : String)
    (h : ∀ kv ∈ d, metadataKey kv.1 ≠ key) :
    lookupKey (s.metadata_set d).attributes key = lookupKey s.attributes key := by
  induction d generalizing s with
  | nil => rfl
  | cons kv d ih =>
      simp only [Span.metadata_set, List.foldl_cons]
      have step := ih { s with attributes := setKey s.attributes (metadataKey kv.1) kv.2 }
        (fun x hx => h x (List.mem_cons_of_mem _ hx))
      refine step.trans ?_
      exact lookupKey_setKey_ne _ _ _ _ (h kv (List.mem_cons_self _ _)).symm

theorem metadata_set_lookup_mem (d : List (String × Value)) :
    ∀ (s : Span) (k : String) (v : Value), (d.map Prod.fst).Nodup →
      lookupKey d k = some v → (s.metadata_set d).metadata_get k = some v := by
  induction d with
  | nil =>
      intro s k v _ hkv
      simp [lookupKey] at hkv
  | cons kv0 d ih =>
      intro s k v hnd hkv
      obtain ⟨k0, v0⟩ := kv0
      simp only [List.map_cons, List.nodup_cons] at hnd
      by_cases h0 : k0 = k
      · subst h0
        simp [lookupKey] at hkv
        subst hkv
        have hother : ∀ x ∈ d, metadataKey x.1 ≠ metadataKey k0 := by
          intro x hx he
          exact hnd.1 (metadataKey_injective he ▸ List.mem_map_of_mem Prod.fst hx)
        unfold Span.metadata_get
        simp only [Span.metadata_set, List.foldl_cons]
        have hout := metadata_set_lookup_other d
          { s with attributes := setKey s.attributes (metadataKey k0) v0 }
          (metadataKey k0) hother
        refine hout.trans ?_
        exact lookupKey_setKey_self _ _ _
      · simp only [lookupKey, if_neg h0] at hkv
        simp only [Span.metadata_set, List.foldl_cons]
        exact ih _ k v hnd.2 hkv

/-- C10: assigning a string-keyed dictionary to a span's metadata merges
rather than replaces: every key of the assigned dictionary afterwards reads
as its assigned value, every metadata key absent from the dictionary keeps
its prior value, and attribute keys outside the metadata namespace are
untouched. -/
theorem metadata_assign_merges (s : Span) (d : List (String × Value))
    (hnd : (d.map Prod.fst).Nodup) :
    (∀ k v, lookupKey d k = some v → (s.metadata_set d).metadata_get k = some v)
    ∧ (∀ k, lookupKey d k = none →
        (s.metadata_set d).metadata_get k = s.metadata_get k)
    ∧ (∀ key, (∀ k, key ≠ metadataKey k) →
        lookupKey (s.metadata_set d).attributes key = lookupKey s.attributes key) := by
  refine ⟨fun k v hkv => metadata_set_lookup_mem d s k v hnd hkv, ?_, ?_⟩
  · intro k hk
    unfold Span.metadata_get
    apply metadata_set_lookup_other
    intro x hx he
    have hxk : x.1 = k := metadataKey_injective he
    exact lookupKey_ne_none_of_mem hx (hxk ▸ hk)
  · intro key hkey
    exact metadata_set_lookup_other d s key (fun kv _ he => hkey kv.1 he.symm)

/-- Witness for C10: merging `{"b": 2}` into a span whose metadata holds
`{"a": "x"}` and whose attributes also hold a third-party key leaves `a`
and the third-party attribute unchanged while `b` reads back as `2`. -/
theorem metadata_assign_merges_witness :
    (spanWithMetadata.metadata_set [("b", .int 2)]).metadata_get "b" = some (.int 2)
    ∧ (spanWithMetadata.metadata_set [("b", .int 2)]).metadata_get "a" = some (.str "x")
    ∧ lookupKey (spanWithMetadata.metadata_set [("b", .int 2)]).attributes "third_party"
        = some (.bool true) := by
  have hk : ∀ k : String, "third_party" ≠ metadataKey k := by
    intro k h
    have hlen := congrArg String.length h
    rw [metadataKey, String.length_append] at hlen
    have h1 : ("third_party" : String).length = 11 := rfl
    have h2 : (vendor_attr "metadata" ++ ".").length = 22 := rfl
    omega
  have h := metadata_assign_merges spanWithMetadata [("b", .int 2)] (by simp)
  refine ⟨h.1 "b" (.int 2) rfl, (h.2.1 "a" rfl).trans ?_, (h.2.2 "third_party" hk).trans ?_⟩
  · rfl
  · rfl
